import Mathlib

/-!
Verification development for the `openclaw-a2a` A2A server and relay client
(`src/relay-client.ts`): a shallow embedding of the JSON-RPC task-lifecycle
handlers (`message/send`, `tasks/get`, `tasks/cancel`, `tasks/list`), the
JSON-RPC envelope validation, and the relay client's connection lifecycle,
together with theorems settling the specification claims.

Modelling conventions (each noted again at its definition):
* ISO-8601 timestamps are represented by the numeric instant
  `new Date(s).getTime()` as a `Nat`; the source only ever compares parsed
  timestamps numerically and stamps records with the current clock value.
* `randomUUID()` is modelled as a counter-indexed supply `uuidStr`;
  freshness of the supply with respect to the store is an explicit
  hypothesis where a claim needs it.
* JavaScript string truthiness (`if (s)` treating `undefined` and `""`
  alike) is captured by `strVal : Option String → Option String`.
* The `tasks/list` page token is a decimal numeral in the source, produced
  by `String(n)` and consumed by `parseInt`; it is modelled by its numeric
  value, with `none` standing for the empty string (which the source treats
  as "no token" both when emitting and, being falsy, when receiving).
-/

namespace A2A

/-! ### Error codes (a2a-types.ts `JSONRPC_ERROR_CODES` / `A2A_ERROR_CODES`) -/

def PARSE_ERROR : Int := -32700
def INVALID_REQUEST : Int := -32600
def METHOD_NOT_FOUND : Int := -32601
def INVALID_PARAMS : Int := -32602
def INTERNAL_ERROR : Int := -32603

def TASK_NOT_FOUND : Int := -32001
def TASK_NOT_CANCELABLE : Int := -32002
def UNSUPPORTED_OPERATION : Int := -32004

/-! ### Core protocol data (a2a-types.ts) -/

/-- A message part. The server never inspects part payloads except when it
constructs the text part carrying a handler error, so the `file`/`data`
variants are carried as the same optional-field shape the source uses. -/
structure Part where
  type : Option String := none
  text : Option String := none
deriving DecidableEq, Repr

/-- A protocol message. `role` and `parts` are required by the TypeScript
type but only enforced by `message/send` validation, so they are optional
here exactly as unchecked JSON input can omit them. `metadata` is an opaque
payload. -/
structure Message where
  messageId : Option String := none
  contextId : Option String := none
  taskId : Option String := none
  role : Option String := none
  parts : Option (List Part) := none
  metadata : Option String := none
deriving DecidableEq, Repr

structure Artifact where
  name : Option String := none
  parts : List Part := []
deriving DecidableEq, Repr

/-- Task status. `state` is one of the `TaskState` string constants (the
source types states as a string union and checks them against string sets).
The `timestamp` is the numeric instant of the ISO string the source stores
(`new Date(s).getTime()`); the source only compares these numerically. -/
structure TaskStatus where
  state : String
  message : Option Message := none
  timestamp : Option Nat := none
deriving DecidableEq, Repr

structure Task where
  id : String
  contextId : Option String := none
  status : TaskStatus
  artifacts : Option (List Artifact) := none
  history : Option (List Message) := none
  metadata : Option String := none
deriving DecidableEq, Repr

def TASK_STATE_SUBMITTED : String := "TASK_STATE_SUBMITTED"
def TASK_STATE_WORKING : String := "TASK_STATE_WORKING"
def TASK_STATE_INPUT_REQUIRED : String := "TASK_STATE_INPUT_REQUIRED"
def TASK_STATE_COMPLETED : String := "TASK_STATE_COMPLETED"
def TASK_STATE_FAILED : String := "TASK_STATE_FAILED"
def TASK_STATE_CANCELED : String := "TASK_STATE_CANCELED"
def TASK_STATE_REJECTED : String := "TASK_STATE_REJECTED"

/-- `TERMINAL_STATES` set from relay-client.ts: v1.0 names plus the v0.3
lowercase compatibility spellings. -/
def TERMINAL_STATES : List String :=
  [TASK_STATE_COMPLETED, TASK_STATE_FAILED, TASK_STATE_CANCELED, TASK_STATE_REJECTED,
   "completed", "failed", "canceled", "rejected"]

/-- `VALID_TASK_STATES` from a2a-types.ts. -/
def VALID_TASK_STATES : List String :=
  [TASK_STATE_SUBMITTED, TASK_STATE_WORKING, TASK_STATE_INPUT_REQUIRED,
   TASK_STATE_COMPLETED, TASK_STATE_FAILED, TASK_STATE_CANCELED, TASK_STATE_REJECTED,
   "submitted", "working", "input-required", "completed", "failed", "canceled", "rejected"]

/-! ### JSON-RPC envelope values -/

/-- A JSON-RPC id value: string, number, or null. -/
inductive RpcId where
  | s (v : String)
  | n (v : Int)
  | null
deriving DecidableEq, Repr

structure JsonRpcError where
  code : Int
  message : String
deriving DecidableEq, Repr

/-- `SendMessageResponse` (proto oneof); the server always fills `task`. -/
structure SendMessageResponse where
  task : Option Task := none
  message : Option Message := none
deriving DecidableEq, Repr

/-- `ListTasksResponse`. `nextPageToken` is a decimal numeral in the
source; it is modelled by its numeric value, with `none` for the empty
string (the "no further pages" marker). -/
structure ListTasksResponse where
  tasks : List Task
  nextPageToken : Option Nat
  pageSize : Nat
  totalSize : Nat
deriving DecidableEq, Repr

/-- The typed result payloads the server produces. -/
inductive RpcResult where
  | sendMessage (r : SendMessageResponse)
  | task (t : Task)
  | taskList (r : ListTasksResponse)
  | agentCard
deriving DecidableEq, Repr

structure JsonRpcResponse where
  id : RpcId
  result : Option RpcResult := none
  error : Option JsonRpcError := none
deriving DecidableEq, Repr

/-! ### Request parameter shapes (a2a-types.ts request types)

Fields the source reads with presence/type guards are `Option`s. -/

structure SendMessageRequest where
  message : Option Message := none
deriving DecidableEq, Repr

structure GetTaskRequest where
  id : Option String := none
  historyLength : Option Int := none
deriving DecidableEq, Repr

structure CancelTaskRequest where
  id : Option String := none
deriving DecidableEq, Repr

/-- `ListTasksRequest`. `pageSize`/`historyLength` are `Option Int`
(`typeof x === 'number'` guard), `pageToken` is the numeric value of the
decimal token (`none` = absent or empty string), `statusTimestampAfter` is
the parsed instant of a well-formed ISO timestamp (the source's string
format validation rejects anything that does not parse, which is not
representable here), and `includeArtifacts` models the `=== true` check. -/
structure ListTasksRequest where
  contextId : Option String := none
  status : Option String := none
  pageSize : Option Int := none
  pageToken : Option Nat := none
  historyLength : Option Int := none
  statusTimestampAfter : Option Nat := none
  includeArtifacts : Bool := false
deriving DecidableEq, Repr

/-! ### Server state -/

/-- The server's mutable state: the `tasks` Map (an insertion-ordered
association list, as JavaScript `Map` iterates in insertion order), the
`randomUUID()` supply index, and the current clock instant (the value
every `new Date().toISOString()` during the request denotes). -/
structure ServerState where
  tasks : List (String × Task)
  uuidCounter : Nat
  now : Nat
deriving DecidableEq, Repr

/-- `Map.get`: first entry with the key. -/
def mapGet : List (String × Task) → String → Option Task
  | [], _ => none
  | p :: rest, k => if p.1 = k then some p.2 else mapGet rest k

/-- `Map.set`: replace the first entry with the key in place (JavaScript
`Map` keeps the original insertion position on update), append if absent. -/
def mapSet : List (String × Task) → String → Task → List (String × Task)
  | [], k, v => [(k, v)]
  | p :: rest, k, v => if p.1 = k then (k, v) :: rest else p :: mapSet rest k v

/-- `Array.from(map.values())`: the values in insertion order. -/
def mapValues (m : List (String × Task)) : List Task := m.map (fun p => p.2)

/-- The `randomUUID()` supply: the `n`-th generated id. -/
def uuidStr (n : Nat) : String := "uuid-" ++ toString n

def bumpUuid (st : ServerState) : ServerState :=
  { st with uuidCounter := st.uuidCounter + 1 }

/-- JavaScript string truthiness: `undefined` and `""` are falsy, so both
normalise to `none`. Used wherever the source writes `if (s)` or `s || t`
on an optional string. -/
def strVal : Option String → Option String
  | none => none
  | some s => if s = "" then none else some s

/-- `arr.slice(-n)` for `n > 0`: the last `n` elements (all of them when
`n` exceeds the length). -/
def sliceLast (n : Int) (l : List Message) : List Message :=
  l.drop (l.length - n.toNat)

/-- `jsonRpcSuccess`: wrap a result; a null id is replaced by a fresh
`randomUUID()` (the `id ?? randomUUID()` coalescing in the source). -/
def jsonRpcSuccess (st : ServerState) (id : RpcId) (result : RpcResult) :
    JsonRpcResponse × ServerState :=
  match id with
  | .null => ({ id := .s (uuidStr st.uuidCounter), result := some result }, bumpUuid st)
  | _ => ({ id := id, result := some result }, st)

/-- `jsonRpcError`: wrap an error object; a null id is replaced by a fresh
`randomUUID()` (the `id ?? randomUUID()` coalescing in the source). -/
def jsonRpcError (st : ServerState) (id : RpcId) (code : Int) (message : String) :
    JsonRpcResponse × ServerState :=
  match id with
  | .null =>
      ({ id := .s (uuidStr st.uuidCounter), error := some ⟨code, message⟩ }, bumpUuid st)
  | _ => ({ id := id, error := some ⟨code, message⟩ }, st)

/-! ### JSON-RPC envelope validation (`handleJsonRpc` / `validateJsonRpcRequestDetailed`)

The transport layer hands the handler either an unparseable body or a JSON
value. The envelope fields the validator inspects are modelled by their
dynamic type class: `RawId` distinguishes an absent id, an explicit null,
a string, a number, and any other JSON type; `RawParams` likewise tracks
only what `typeof` can see. -/

inductive RawId where
  | absent
  | null
  | str (s : String)
  | num (n : Int)
  | other
deriving DecidableEq, Repr

inductive RawParams where
  | absent
  | isNull
  | objOrArray
  | primitive
deriving DecidableEq, Repr

/-- The parsed request envelope as the validator sees it. `method` is
`none` when the field is absent or not a string. -/
structure RawRequest where
  id : RawId := .absent
  jsonrpc : Option String := none
  method : Option String := none
  params : RawParams := .absent
deriving DecidableEq, Repr

/-- A parseable body is either a non-object JSON value or an object. -/
inductive ParsedBody where
  | notObject
  | obj (r : RawRequest)
deriving DecidableEq, Repr

/-- Result record of `validateJsonRpcRequestDetailed` (`valid`, best-effort
`id` for the error response, error `code`, `message`). -/
structure ValidationResult where
  valid : Bool
  id : RpcId
  code : Int
  message : String
deriving DecidableEq, Repr

/-- `validateJsonRpcRequestDetailed`, checks in source order: object shape,
id type (id first, forced to null on failure), `jsonrpc` version, `method`
string, `params` object-or-array. -/
def validateJsonRpcRequestDetailed (req : ParsedBody) : ValidationResult :=
  match req with
  | .notObject => ⟨false, .null, INVALID_REQUEST, "Invalid Request"⟩
  | .obj r =>
    match r.id with
    | .other =>
        ⟨false, .null, INVALID_REQUEST, "Invalid Request: id must be string or number"⟩
    | rid =>
      let id : RpcId := match rid with
        | .str s => .s s
        | .num n => .n n
        | _ => .null
      if r.jsonrpc ≠ some "2.0" then
        ⟨false, id, INVALID_REQUEST, "Invalid Request: jsonrpc must be \"2.0\""⟩
      else if r.method = none then
        ⟨false, id, INVALID_REQUEST, "Invalid Request: method must be a string"⟩
      else match r.params with
        | .primitive => ⟨false, id, INVALID_PARAMS, "Invalid params: must be object or array"⟩
        | _ => ⟨true, id, 0, ""⟩

/-- The parse/validate prefix of `handleJsonRpc`: an unparseable body
(`none`) yields the parse error, a structurally invalid envelope yields
the corresponding error, and a valid envelope is passed on to
`routeMethod`. -/
def handleJsonRpcValidation (st : ServerState) (body : Option ParsedBody) :
    Except (JsonRpcResponse × ServerState) ParsedBody :=
  match body with
  | none => .error (jsonRpcError st .null PARSE_ERROR "Parse error")
  | some b =>
    let v := validateJsonRpcRequestDetailed b
    if v.valid then .ok b
    else .error (jsonRpcError st v.id v.code v.message)

/-! ### message/send handler -/

/-- The three shapes a handler callback may return (`MessageResult`). -/
inductive MessageResult where
  | message (m : Message)
  | task (t : Task)
  | working

/-- The observable behaviour of one handler callback invocation: the
`sendStatus` calls it made (in order), the `sendArtifact` calls it made
(in order), and its return value or thrown error. `sendStatus` and
`sendArtifact` touch disjoint task fields, so this sequencing is faithful
to any interleaving of the calls. -/
structure HandlerOutcome where
  statusUpdates : List TaskStatus := []
  artifacts : List Artifact := []
  result : Except String MessageResult

/-- The `onMessage` handler, given the message and the `taskId`/`contextId`
the context exposes. -/
def MessageHandler := Message → String → String → HandlerOutcome

/-- The state reached by `handleMessageSend` at the moment the handler
callback is invoked. -/
structure SendSetup where
  msg : Message
  taskId : String
  contextId : String
  task : Task
  st : ServerState

/-- The tail of the `handleMessageSend` setup once the checks passed:
`taskId = messageTaskId || randomUUID()`,
`contextId = messageContextId || existingTask?.contextId || randomUUID()`
(each `randomUUID()` consumed in that order), task creation or reuse, the
WORKING transition with the incoming message appended to history, and the
store write. -/
def messageSendFinish (st : ServerState) (m : Message)
    (existingTask : Option Task) (tidOpt : Option String) : SendSetup :=
  let pair1 : String × ServerState := match tidOpt with
    | some t => (t, st)
    | none => (uuidStr st.uuidCounter, bumpUuid st)
  let taskId := pair1.1
  let st1 := pair1.2
  let ctxOpt : Option String := match strVal m.contextId with
    | some c => some c
    | none => strVal (existingTask.bind Task.contextId)
  let pair2 : String × ServerState := match ctxOpt with
    | some c => (c, st1)
    | none => (uuidStr st1.uuidCounter, bumpUuid st1)
  let contextId := pair2.1
  let st2 := pair2.2
  let task0 : Task := match existingTask with
    | some t => t
    | none =>
      { id := taskId, contextId := some contextId,
        status := { state := TASK_STATE_WORKING, timestamp := some st.now },
        history := some [], artifacts := some [] }
  let task1 : Task := { task0 with
    status := { state := TASK_STATE_WORKING, timestamp := some st.now },
    history := some (task0.history.getD [] ++ [m]) }
  { msg := m, taskId := taskId, contextId := contextId, task := task1,
    st := { st2 with tasks := mapSet st2.tasks taskId task1 } }

/-- The validation / task-creation prefix of `handleMessageSend`
(everything before `this.config.onMessage` is awaited), in source order:
params shape checks, continuation lookup with terminal-state and
contextId-match checks, then `messageSendFinish`. -/
def messageSendSetup (st : ServerState) (params : Option SendMessageRequest) :
    Except (Int × String) SendSetup :=
  match params with
  | none => .error (INVALID_PARAMS, "Invalid params")
  | some p =>
  match p.message with
  | none => .error (INVALID_PARAMS, "Missing message")
  | some m =>
  match m.parts with
  | none => .error (INVALID_PARAMS, "Missing or invalid message.parts")
  | some ps =>
  if ps.length = 0 then .error (INVALID_PARAMS, "Message parts array must not be empty")
  else if strVal m.role = none then .error (INVALID_PARAMS, "Missing message.role")
  else if strVal m.messageId = none then .error (INVALID_PARAMS, "Missing message.messageId")
  else
    match strVal m.taskId with
    | some tid =>
      (match mapGet st.tasks tid with
       | none => .error (TASK_NOT_FOUND, "Task not found")
       | some existingTask =>
         if existingTask.status.state ∈ TERMINAL_STATES then
           .error (UNSUPPORTED_OPERATION, "Task is in terminal state")
         else
           match strVal m.contextId with
           | some c =>
             if existingTask.contextId ≠ some c then
               .error (INVALID_PARAMS, "contextId does not match task")
             else .ok (messageSendFinish st m (some existingTask) (some tid))
           | none => .ok (messageSendFinish st m (some existingTask) (some tid)))
    | none => .ok (messageSendFinish st m none none)

/-- Apply the side effects of the handler callback to the task record:
each `sendStatus(s)` replaces the status with `s` restamped at the current
instant, and the `sendArtifact` calls append to `artifacts` (initialising
it to `[]` on the first call). -/
def applyOutcomeEffects (now : Nat) (t : Task) (ho : HandlerOutcome) : Task :=
  let t1 := ho.statusUpdates.foldl
    (fun acc s => { acc with status := { s with timestamp := some now } }) t
  match ho.artifacts with
  | [] => t1
  | a => { t1 with artifacts := some (t1.artifacts.getD [] ++ a) }

/-- The message carried by a FAILED status when the handler throws `e`:
`role 'agent'` with a single text part holding the error text. -/
def failureMessage (e : String) : Message :=
  { role := some "agent", parts := some [{ type := some "text", text := some e }] }

/-- `handleMessageSend`: run the setup, invoke the handler, then finish
according to the callback's result — `message` completes the task and
appends the reply to history, `working` leaves it WORKING, `task` answers
with the handler's task (the stored record keeps the side-effect state),
and a thrown error marks the task FAILED with the error text while still
answering with a JSON-RPC success result wrapping the failed task. -/
def handleMessageSend (handler : MessageHandler) (st : ServerState) (id : RpcId)
    (params : Option SendMessageRequest) : JsonRpcResponse × ServerState :=
  match messageSendSetup st params with
  | .error e => jsonRpcError st id e.1 e.2
  | .ok su =>
    let ho := handler su.msg su.taskId su.contextId
    let task2 := applyOutcomeEffects su.st.now su.task ho
    match ho.result with
    | .ok (.message m') =>
      let task3 : Task := { task2 with
        status := { state := TASK_STATE_COMPLETED, message := some m',
                    timestamp := some su.st.now },
        history := some (task2.history.getD [] ++ [m']) }
      jsonRpcSuccess { su.st with tasks := mapSet su.st.tasks su.taskId task3 } id
        (.sendMessage { task := some task3 })
    | .ok .working =>
      jsonRpcSuccess { su.st with tasks := mapSet su.st.tasks su.taskId task2 } id
        (.sendMessage { task := some task2 })
    | .ok (.task t) =>
      jsonRpcSuccess { su.st with tasks := mapSet su.st.tasks su.taskId task2 } id
        (.sendMessage { task := some t })
    | .error e =>
      let task3 : Task := { task2 with
        status := { state := TASK_STATE_FAILED, message := some (failureMessage e),
                    timestamp := some su.st.now } }
      jsonRpcSuccess { su.st with tasks := mapSet su.st.tasks su.taskId task3 } id
        (.sendMessage { task := some task3 })

/-- The guard `params.historyLength !== undefined && params.historyLength < 0`. -/
def historyLengthNegative (hl : Option Int) : Bool :=
  match hl with
  | some k => decide (k < 0)
  | none => false

/-- The guard `status !== undefined && !VALID_TASK_STATES.has(status)`. -/
def statusInvalid (s : Option String) : Bool :=
  match s with
  | some s1 => !decide (s1 ∈ VALID_TASK_STATES)
  | none => false

/-! ### tasks/get handler -/

/-- `handleTasksGet`: id presence check, non-negative `historyLength`
check, lookup, then the read-time history projection on a copy of the
record (`historyLength` 0 deletes the field, `N > 0` keeps the last `N`
entries). -/
def handleTasksGet (st : ServerState) (id : RpcId) (params : Option GetTaskRequest) :
    JsonRpcResponse × ServerState :=
  match strVal (params.bind GetTaskRequest.id) with
  | none => jsonRpcError st id INVALID_PARAMS "Missing task id"
  | some tid =>
    let hl := params.bind GetTaskRequest.historyLength
    if historyLengthNegative hl then
      jsonRpcError st id INVALID_PARAMS "historyLength must be non-negative"
    else
      match mapGet st.tasks tid with
      | none => jsonRpcError st id TASK_NOT_FOUND "Task not found"
      | some task =>
        let responseTask : Task := match hl with
          | some k =>
            if k = 0 then { task with history := none }
            else match task.history with
              | some h => { task with history := some (sliceLast k h) }
              | none => task
          | none => task
        jsonRpcSuccess st id (.task responseTask)

/-! ### tasks/cancel handler -/

/-- `handleTasksCancel`: id presence check, lookup, terminal-state check,
then replace the status outright with CANCELED at the current instant. -/
def handleTasksCancel (st : ServerState) (id : RpcId) (params : Option CancelTaskRequest) :
    JsonRpcResponse × ServerState :=
  match strVal (params.bind CancelTaskRequest.id) with
  | none => jsonRpcError st id INVALID_PARAMS "Missing task id"
  | some tid =>
    match mapGet st.tasks tid with
    | none => jsonRpcError st id TASK_NOT_FOUND "Task not found"
    | some task =>
      if task.status.state ∈ TERMINAL_STATES then
        jsonRpcError st id TASK_NOT_CANCELABLE "Task already in terminal state"
      else
        let task' : Task := { task with
          status := { state := TASK_STATE_CANCELED, timestamp := some st.now } }
        jsonRpcSuccess { st with tasks := mapSet st.tasks tid task' } id (.task task')

/-! ### tasks/list handler -/

/-- The sort key: `new Date(t.status.timestamp).getTime()` with 0 for a
missing timestamp. -/
def timeKey (t : Task) : Nat := t.status.timestamp.getD 0

/-- The comparator `(a, b) => bTime - aTime` keeps `a` before `b` exactly
when `timeKey b ≤ timeKey a`; JavaScript's `Array.prototype.sort` is
stable, which `List.mergeSort` with this `le` reproduces. -/
def taskLe (a b : Task) : Bool := decide (timeKey b ≤ timeKey a)

/-- The three filters of `handleTasksList`, applied in source order to the
store's values (insertion order): `contextId` equality, `status.state`
equality, and `status.timestamp` at or after the threshold (tasks without
a timestamp are dropped by that filter). -/
def filteredTasks (tasks : List (String × Task)) (p : ListTasksRequest) : List Task :=
  let l0 := mapValues tasks
  let l1 := match strVal p.contextId with
    | some cid => l0.filter (fun t => decide (t.contextId = some cid))
    | none => l0
  let l2 := match strVal p.status with
    | some s => l1.filter (fun t => decide (t.status.state = s))
    | none => l1
  match p.statusTimestampAfter with
  | some f => l2.filter (fun t => match t.status.timestamp with
      | none => false
      | some ts => decide (f ≤ ts))
  | none => l2

/-- Filter then stable-sort by `status.timestamp` descending. -/
def sortedTasks (tasks : List (String × Task)) (p : ListTasksRequest) : List Task :=
  (filteredTasks tasks p).mergeSort taskLe

/-- The per-task projection of a list result: a fresh record carrying
`id`/`contextId`/`status`/`metadata`, with `history` governed by the
`historyLength` cap (0 omits it, `N` keeps the last `N`, absent copies it)
and `artifacts` only when requested. -/
def projectListTask (hl : Option Int) (includeArtifacts : Bool) (t : Task) : Task :=
  let base : Task :=
    { id := t.id, contextId := t.contextId, status := t.status, metadata := t.metadata }
  let withHist : Task :=
    if hl = some 0 then base
    else match hl, t.history with
      | some k, some h => { base with history := some (sliceLast k h) }
      | _, _ => { base with history := t.history }
  if includeArtifacts then { withHist with artifacts := t.artifacts } else withHist

/-- `handleTasksList`: parameter validation (pageSize range, non-negative
historyLength, known status), filter, stable sort, numeric-offset
pagination, per-task projection, and the response with `nextPageToken`
empty once the next offset reaches `totalSize` and `pageSize` reporting
the actual returned count. -/
def handleTasksList (st : ServerState) (id : RpcId) (params : Option ListTasksRequest) :
    JsonRpcResponse × ServerState :=
  let p := params.getD {}
  let pageSize : Int := p.pageSize.getD 50
  if pageSize < 1 ∨ pageSize > 100 then
    jsonRpcError st id INVALID_PARAMS "pageSize must be between 1 and 100"
  else if historyLengthNegative p.historyLength then
    jsonRpcError st id INVALID_PARAMS "historyLength must be non-negative"
  else if statusInvalid p.status then
    jsonRpcError st id INVALID_PARAMS "Invalid status"
  else
    let sorted := sortedTasks st.tasks p
    let totalSize := sorted.length
    let startIndex := p.pageToken.getD 0
    let pageTasks := (sorted.drop startIndex).take pageSize.toNat
    let resultTasks := pageTasks.map (projectListTask p.historyLength p.includeArtifacts)
    let nextStartIndex := startIndex + pageSize.toNat
    let nextPageToken : Option Nat :=
      if nextStartIndex < totalSize then some nextStartIndex else none
    jsonRpcSuccess st id (.taskList
      { tasks := resultTasks, nextPageToken := nextPageToken,
        pageSize := resultTasks.length, totalSize := totalSize })

/-- The `ListTasksResponse` of one `tasks/list` call at a given page
token, when the call succeeds. -/
def listPageResp (st : ServerState) (p : ListTasksRequest) (tok : Option Nat) :
    Option ListTasksResponse :=
  match (handleTasksList st (.n 1) (some { p with pageToken := tok })).1.result with
  | some (.taskList r) => some r
  | _ => none

/-- All tasks obtained by calling `tasks/list` at the given token and then
repeatedly following `nextPageToken` until it is empty (with a fuel bound
on the number of pages). -/
def listPagesFrom (st : ServerState) (p : ListTasksRequest) :
    Nat → Option Nat → List Task
  | 0, _ => []
  | fuel + 1, tok =>
    match listPageResp st p tok with
    | none => []
    | some r =>
      r.tasks ++ (match r.nextPageToken with
        | none => []
        | some t' => listPagesFrom st p fuel (some t'))

/-! ### Relay client connection lifecycle (`RelayClient`)

The fields of `RelayClient` that the auth / close / error events touch,
plus the state of the pending `connect()` promise. -/

inductive PromiseState where
  | pending
  | resolved
  | rejected
deriving DecidableEq, Repr

structure RelayConn where
  wsOpen : Bool
  isConnected : Bool
  isStopping : Bool
  autoReconnect : Bool
  reconnectTimerArmed : Bool
  connectPromise : PromiseState
deriving DecidableEq, Repr

/-- Resolving a promise settles it only if still pending. -/
def resolveConnect : PromiseState → PromiseState
  | .pending => .resolved
  | s => s

/-- Rejecting a promise settles it only if still pending. -/
def rejectConnect : PromiseState → PromiseState
  | .pending => .rejected
  | s => s

/-- The relay frame types `handleMessage` distinguishes. -/
inductive RelayFrame where
  | authOk
  | authError
  | a2aRequest
  | ping
  | unknown

/-- `scheduleReconnect`: arming is a no-op when a timer is already
pending. -/
def scheduleReconnect (c : RelayConn) : RelayConn :=
  if c.reconnectTimerArmed then c else { c with reconnectTimerArmed := true }

/-- `RelayClient.handleMessage`: `auth_ok` marks the connection usable and
resolves the pending connect promise; `auth_error` logs and calls
`this.ws?.close()` (no other state change — in particular the promise is
not settled); `a2a.request`, `ping`, and unknown frames do not change the
connection lifecycle state. -/
def handleRelayMessage (frame : RelayFrame) (c : RelayConn) : RelayConn :=
  match frame with
  | .authOk => { c with isConnected := true, connectPromise := resolveConnect c.connectPromise }
  | .authError => { c with wsOpen := false }
  | .a2aRequest => c
  | .ping => c
  | .unknown => c

/-- The socket `close` event handler: clear the connected flag and the
socket, then schedule a reconnect unless stopping or auto-reconnect is
disabled. Closing the socket (as `auth_error` does) fires this event. -/
def wsCloseEvent (c : RelayConn) : RelayConn :=
  let c1 := { c with isConnected := false, wsOpen := false }
  if ¬c1.isStopping ∧ c1.autoReconnect then scheduleReconnect c1 else c1

/-- The socket `error` event handler: reject the pending connect promise
only when not yet connected. This is the only place the connect promise
can ever be rejected. -/
def wsErrorEvent (c : RelayConn) : RelayConn :=
  if ¬c.isConnected then { c with connectPromise := rejectConnect c.connectPromise } else c

/-- The client state while `doConnect` is awaiting authentication, with
the default configuration (`autoReconnect: true`) after `connect()`
cleared the stopping flag. -/
def connectingConn : RelayConn :=
  { wsOpen := true, isConnected := false, isStopping := false,
    autoReconnect := true, reconnectTimerArmed := false, connectPromise := .pending }

/-! ### Validity predicates and concrete fixtures -/

/-- The `tasks/list` parameter conditions under which the handler reaches
its success branch: effective page size within the valid range,
non-negative `historyLength` if present, known `status` if present. -/
def listParamsOk (p : ListTasksRequest) : Prop :=
  1 ≤ p.pageSize.getD 50 ∧ p.pageSize.getD 50 ≤ 100 ∧
  (match p.historyLength with | some k => 0 ≤ k | none => True) ∧
  (match p.status with | some s => s ∈ VALID_TASK_STATES | none => True)

/-- A `randomUUID()` supply that can never collide with the keys already
in the store (the contract `randomUUID()` provides probabilistically). -/
def FreshSupply (st : ServerState) : Prop :=
  ∀ k, st.uuidCounter ≤ k → mapGet st.tasks (uuidStr k) = none

/-- Concrete fixture: a structurally valid user message. -/
def exMsg : Message :=
  { messageId := some "m1", role := some "user",
    parts := some [{ type := some "text", text := some "Hello" }] }

/-- Concrete fixture: a task already in the terminal COMPLETED state. -/
def exTermTask : Task :=
  { id := "t1", contextId := some "c1",
    status := { state := TASK_STATE_COMPLETED, timestamp := some 50 },
    history := some [exMsg], artifacts := some [] }

/-- Concrete fixture: a WORKING task whose status carries a message. -/
def exWorkTask : Task :=
  { id := "t2", contextId := some "c1",
    status := { state := TASK_STATE_WORKING, message := some exMsg, timestamp := some 60 },
    history := some [exMsg], artifacts := some [] }

/-- Concrete fixture: a server holding the two tasks above. -/
def exStore : ServerState :=
  { tasks := [("t1", exTermTask), ("t2", exWorkTask)], uuidCounter := 0, now := 100 }

/-- Concrete fixture: an empty server. -/
def exEmpty : ServerState := { tasks := [], uuidCounter := 0, now := 100 }

/-- Concrete fixture: a handler that always throws. -/
def exThrowHandler : MessageHandler := fun _ _ _ => { result := .error "boom" }

/-- Concrete fixture: a server holding only the WORKING task. -/
def exStoreOne : ServerState :=
  { tasks := [("t2", exWorkTask)], uuidCounter := 0, now := 100 }

/-! ## Helper lemmas -/

theorem mapGet_mapSet_self (m : List (String × Task)) (k : String) (v : Task) :
    mapGet (mapSet m k v) k = some v := by
  induction m with
  | nil => simp [mapSet, mapGet]
  | cons p rest ih =>
    by_cases h : p.1 = k
    · simp [mapSet, mapGet, h]
    · simp [mapSet, mapGet, h, ih]

theorem mapGet_mapSet_ne (m : List (String × Task)) (k : String) (v : Task)
    (k' : String) (h : k' ≠ k) :
    mapGet (mapSet m k v) k' = mapGet m k' := by
  induction m with
  | nil => simp [mapSet, mapGet, Ne.symm h]
  | cons p rest ih =>
    by_cases hp : p.1 = k
    · subst hp
      simp [mapSet, mapGet, Ne.symm h]
    · simp [mapSet, mapGet, hp, ih]

theorem mapGet_none (m : List (String × Task)) (k : String)
    (h : ∀ p ∈ m, p.1 ≠ k) : mapGet m k = none := by
  induction m with
  | nil => rfl
  | cons p rest ih =>
    simp only [mapGet]
    rw [if_neg (h p (by simp))]
    exact ih (fun q hq => h q (by simp [hq]))

theorem uuidStr_length (n : Nat) : 5 ≤ (uuidStr n).length := by
  have h5 : ("uuid-" : String).length = 5 := rfl
  unfold uuidStr
  rw [String.length_append, h5]
  omega

theorem uuidStr_ne (s : String) (h : s.length < 5) (k : Nat) : uuidStr k ≠ s := by
  intro he
  have hl := uuidStr_length k
  rw [he] at hl
  omega

theorem mapGet_uuid_none (m : List (String × Task))
    (h : ∀ p ∈ m, p.1.length < 5) (k : Nat) : mapGet m (uuidStr k) = none :=
  mapGet_none m _ (fun p hp he => uuidStr_ne p.1 (h p hp) k he.symm)

@[simp] theorem jsonRpcError_result (st : ServerState) (id : RpcId) (c : Int) (msg : String) :
    (jsonRpcError st id c msg).1.result = none := by cases id <;> rfl

@[simp] theorem jsonRpcError_error (st : ServerState) (id : RpcId) (c : Int) (msg : String) :
    (jsonRpcError st id c msg).1.error = some ⟨c, msg⟩ := by cases id <;> rfl

@[simp] theorem jsonRpcError_tasks (st : ServerState) (id : RpcId) (c : Int) (msg : String) :
    (jsonRpcError st id c msg).2.tasks = st.tasks := by cases id <;> rfl

@[simp] theorem jsonRpcSuccess_result (st : ServerState) (id : RpcId) (r : RpcResult) :
    (jsonRpcSuccess st id r).1.result = some r := by cases id <;> rfl

@[simp] theorem jsonRpcSuccess_error (st : ServerState) (id : RpcId) (r : RpcResult) :
    (jsonRpcSuccess st id r).1.error = none := by cases id <;> rfl

@[simp] theorem jsonRpcSuccess_tasks (st : ServerState) (id : RpcId) (r : RpcResult) :
    (jsonRpcSuccess st id r).2.tasks = st.tasks := by cases id <;> rfl

theorem foldl_statusUpdate_history (now : Nat) (l : List TaskStatus) (t : Task) :
    (List.foldl (fun acc s => { acc with status := { s with timestamp := some now } }) t l).history
      = t.history := by
  induction l generalizing t with
  | nil => rfl
  | cons s rest ih => exact ih _

theorem applyOutcomeEffects_history (now : Nat) (t : Task) (ho : HandlerOutcome) :
    (applyOutcomeEffects now t ho).history = t.history := by
  unfold applyOutcomeEffects
  split
  · exact foldl_statusUpdate_history now ho.statusUpdates t
  · exact foldl_statusUpdate_history now ho.statusUpdates t


theorem messageSendFinish_cont (st : ServerState) (m : Message) (ex : Task) (tid : String) :
    (messageSendFinish st m (some ex) (some tid)).msg = m ∧
    (messageSendFinish st m (some ex) (some tid)).taskId = tid ∧
    (messageSendFinish st m (some ex) (some tid)).st.now = st.now ∧
    (messageSendFinish st m (some ex) (some tid)).st.tasks
      = mapSet st.tasks tid (messageSendFinish st m (some ex) (some tid)).task ∧
    (messageSendFinish st m (some ex) (some tid)).task = { ex with
        status := { state := TASK_STATE_WORKING, timestamp := some st.now },
        history := some (ex.history.getD [] ++ [m]) } := by
  refine ⟨rfl, rfl, ?_, ?_, rfl⟩ <;>
    (unfold messageSendFinish; dsimp only; split <;> rfl)

theorem messageSendFinish_fresh (st : ServerState) (m : Message) :
    (messageSendFinish st m none none).msg = m ∧
    (messageSendFinish st m none none).taskId = uuidStr st.uuidCounter ∧
    (messageSendFinish st m none none).st.now = st.now ∧
    (messageSendFinish st m none none).st.tasks
      = mapSet st.tasks (uuidStr st.uuidCounter) (messageSendFinish st m none none).task ∧
    (messageSendFinish st m none none).task.status.state = TASK_STATE_WORKING ∧
    (messageSendFinish st m none none).task.status.message = none ∧
    (messageSendFinish st m none none).task.status.timestamp = some st.now ∧
    (messageSendFinish st m none none).task.history = some [m] ∧
    (messageSendFinish st m none none).task.contextId
      = some (messageSendFinish st m none none).contextId ∧
    (messageSendFinish st m none none).task.id = uuidStr st.uuidCounter ∧
    (messageSendFinish st m none none).task.artifacts = some [] := by
  refine ⟨rfl, rfl, ?_, ?_, ?_, ?_, ?_, ?_, ?_, ?_, ?_⟩ <;>
    (unfold messageSendFinish; (try dsimp only); (try rfl); (try (split <;> rfl)))

theorem messageSendFinish_fresh_ctx (st : ServerState) (m : Message) :
    (strVal m.contextId = none →
       (messageSendFinish st m none none).contextId = uuidStr (st.uuidCounter + 1)) ∧
    (∀ c, strVal m.contextId = some c → (messageSendFinish st m none none).contextId = c) := by
  constructor
  · intro hc
    unfold messageSendFinish
    simp only [hc]
    simp [strVal, bumpUuid]
  · intro c hc
    unfold messageSendFinish
    simp [hc]


theorem messageSendSetup_cont_goal (st : ServerState) (m : Message) (ex : Task) (tid : String)
    (hex : mapGet st.tasks tid = some ex) (hterm : ex.status.state ∉ TERMINAL_STATES) :
    (messageSendFinish st m (some ex) (some tid)).st.now = st.now ∧
    (messageSendFinish st m (some ex) (some tid)).st.tasks
      = mapSet st.tasks (messageSendFinish st m (some ex) (some tid)).taskId
          (messageSendFinish st m (some ex) (some tid)).task ∧
    (messageSendFinish st m (some ex) (some tid)).task.status.state = TASK_STATE_WORKING ∧
    (messageSendFinish st m (some ex) (some tid)).task.status.timestamp = some st.now ∧
    ((∃ ex2, mapGet st.tasks (messageSendFinish st m (some ex) (some tid)).taskId = some ex2 ∧
        ex2.status.state ∉ TERMINAL_STATES ∧
        (messageSendFinish st m (some ex) (some tid)).task.history
          = some (ex2.history.getD [] ++ [(messageSendFinish st m (some ex) (some tid)).msg])) ∨
     ((messageSendFinish st m (some ex) (some tid)).taskId = uuidStr st.uuidCounter ∧
      (messageSendFinish st m (some ex) (some tid)).task.history
        = some [(messageSendFinish st m (some ex) (some tid)).msg])) := by
  obtain ⟨h1, h2, h3, h4, h5⟩ := messageSendFinish_cont st m ex tid
  refine ⟨h3, ?_, ?_, ?_, .inl ⟨ex, ?_, hterm, ?_⟩⟩ <;> simp [h1, h2, h4, h5, hex]

theorem messageSendSetup_fresh_goal (st : ServerState) (m : Message) :
    (messageSendFinish st m none none).st.now = st.now ∧
    (messageSendFinish st m none none).st.tasks
      = mapSet st.tasks (messageSendFinish st m none none).taskId
          (messageSendFinish st m none none).task ∧
    (messageSendFinish st m none none).task.status.state = TASK_STATE_WORKING ∧
    (messageSendFinish st m none none).task.status.timestamp = some st.now ∧
    ((∃ ex2, mapGet st.tasks (messageSendFinish st m none none).taskId = some ex2 ∧
        ex2.status.state ∉ TERMINAL_STATES ∧
        (messageSendFinish st m none none).task.history
          = some (ex2.history.getD [] ++ [(messageSendFinish st m none none).msg])) ∨
     ((messageSendFinish st m none none).taskId = uuidStr st.uuidCounter ∧
      (messageSendFinish st m none none).task.history
        = some [(messageSendFinish st m none none).msg])) := by
  obtain ⟨h1, h2, h3, h4, h5, h6, h7, h8, h9, h10, h11⟩ := messageSendFinish_fresh st m
  refine ⟨h3, ?_, h5, h7, .inr ⟨h2, ?_⟩⟩
  · rw [h2, h4]
  · rw [h8, h1]

theorem messageSendSetup_ok (st : ServerState) (params : Option SendMessageRequest)
    (su : SendSetup) (h : messageSendSetup st params = .ok su) :
    su.st.now = st.now ∧
    su.st.tasks = mapSet st.tasks su.taskId su.task ∧
    su.task.status.state = TASK_STATE_WORKING ∧
    su.task.status.timestamp = some st.now ∧
    ((∃ ex, mapGet st.tasks su.taskId = some ex ∧
        ex.status.state ∉ TERMINAL_STATES ∧
        su.task.history = some (ex.history.getD [] ++ [su.msg])) ∨
     (su.taskId = uuidStr st.uuidCounter ∧ su.task.history = some [su.msg])) := by
  rcases params with _ | p
  · simp [messageSendSetup] at h
  rcases hmsg : p.message with _ | m
  · simp [messageSendSetup, hmsg] at h
  rcases hparts : m.parts with _ | ps
  · simp [messageSendSetup, hmsg, hparts] at h
  simp only [messageSendSetup, hmsg, hparts] at h
  by_cases hlen : ps.length = 0
  · simp [hlen] at h
  rw [if_neg hlen] at h
  by_cases hrole : strVal m.role = none
  · simp [hrole] at h
  rw [if_neg hrole] at h
  by_cases hmid : strVal m.messageId = none
  · simp [hmid] at h
  rw [if_neg hmid] at h
  rcases htid : strVal m.taskId with _ | tid
  · simp only [htid] at h
    injection h with h
    subst h
    exact messageSendSetup_fresh_goal st m
  · simp only [htid] at h
    rcases hex : mapGet st.tasks tid with _ | ex
    · simp [hex] at h
    simp only [hex] at h
    by_cases hterm : ex.status.state ∈ TERMINAL_STATES
    · simp [hterm] at h
    rw [if_neg hterm] at h
    rcases hctx : strVal m.contextId with _ | c
    · simp only [hctx] at h
      injection h with h
      subst h
      exact messageSendSetup_cont_goal st m ex tid hex hterm
    · simp only [hctx] at h
      by_cases hcm : ex.contextId ≠ some c
      · rw [if_pos hcm] at h; exact absurd h (by simp)
      · rw [if_neg hcm] at h
        injection h with h
        subst h
        exact messageSendSetup_cont_goal st m ex tid hex hterm


theorem handleMessageSend_tasks (handler : MessageHandler) (st : ServerState) (id : RpcId)
    (params : Option SendMessageRequest) :
    (handleMessageSend handler st id params).2.tasks = st.tasks
    ∨ ∃ su t2, messageSendSetup st params = .ok su ∧
        (handleMessageSend handler st id params).2.tasks = mapSet su.st.tasks su.taskId t2 ∧
        (t2.history = su.task.history ∨
         ∃ m2, t2.history = some (su.task.history.getD [] ++ [m2])) := by
  rcases hsetup : messageSendSetup st params with e | su
  · left
    simp [handleMessageSend, hsetup]
  · right
    rcases hres : (handler su.msg su.taskId su.contextId).result with e | mr
    · simp only [handleMessageSend, hsetup, hres, jsonRpcSuccess_tasks]
      refine ⟨su, _, rfl, rfl, .inl ?_⟩
      exact applyOutcomeEffects_history su.st.now su.task (handler su.msg su.taskId su.contextId)
    · rcases mr with m2 | t | _
      · simp only [handleMessageSend, hsetup, hres, jsonRpcSuccess_tasks]
        refine ⟨su, _, rfl, rfl, .inr ⟨m2, ?_⟩⟩
        simp [applyOutcomeEffects_history]
      · simp only [handleMessageSend, hsetup, hres, jsonRpcSuccess_tasks]
        refine ⟨su, _, rfl, rfl, .inl ?_⟩
        exact applyOutcomeEffects_history su.st.now su.task (handler su.msg su.taskId su.contextId)
      · simp only [handleMessageSend, hsetup, hres, jsonRpcSuccess_tasks]
        refine ⟨su, _, rfl, rfl, .inl ?_⟩
        exact applyOutcomeEffects_history su.st.now su.task (handler su.msg su.taskId su.contextId)

theorem messageSendSetup_terminal (st : ServerState) (m : Message) (ps : List Part)
    (tid : String) (t : Task)
    (hparts : m.parts = some ps) (hlen : ps.length ≠ 0)
    (hrole : strVal m.role ≠ none) (hmid : strVal m.messageId ≠ none)
    (htid : strVal m.taskId = some tid)
    (hex : mapGet st.tasks tid = some t)
    (hterm : t.status.state ∈ TERMINAL_STATES) :
    messageSendSetup st (some { message := some m }) =
      .error (UNSUPPORTED_OPERATION, "Task is in terminal state") := by
  simp only [messageSendSetup, hparts]
  rw [if_neg hlen, if_neg hrole, if_neg hmid]
  simp only [htid, hex]
  rw [if_pos hterm]


@[simp] theorem projectListTask_status (hl : Option Int) (ia : Bool) (t : Task) :
    (projectListTask hl ia t).status = t.status := by
  unfold projectListTask
  dsimp only
  split <;> (try rfl) <;> (split <;> (try rfl) <;> (split <;> rfl))

@[simp] theorem projectListTask_id (hl : Option Int) (ia : Bool) (t : Task) :
    (projectListTask hl ia t).id = t.id := by
  unfold projectListTask
  dsimp only
  split <;> (try rfl) <;> (split <;> (try rfl) <;> (split <;> rfl))

@[simp] theorem projectListTask_timeKey (hl : Option Int) (ia : Bool) (t : Task) :
    timeKey (projectListTask hl ia t) = timeKey t := by
  unfold timeKey
  rw [projectListTask_status]

theorem projectListTask_artifacts (hl : Option Int) (ia : Bool) (t : Task) :
    (projectListTask hl ia t).artifacts = (if ia then t.artifacts else none) := by
  unfold projectListTask
  dsimp only
  rcases ia <;> simp <;> (split <;> (try rfl) <;> (split <;> rfl))

theorem projectListTask_history_zero (ia : Bool) (t : Task) :
    (projectListTask (some 0) ia t).history = none := by
  unfold projectListTask
  rcases ia <;> simp

theorem projectListTask_history_pos (k : Int) (ia : Bool) (t : Task) (h : List Message)
    (hk : k ≠ 0) (hh : t.history = some h) :
    (projectListTask (some k) ia t).history = some (sliceLast k h) := by
  unfold projectListTask
  rcases ia <;> simp [hh, hk]

theorem projectListTask_history_full (ia : Bool) (t : Task) :
    (projectListTask none ia t).history = t.history := by
  unfold projectListTask
  rcases ia <;> simp

theorem mem_filteredTasks (m : List (String × Task)) (p : ListTasksRequest) (t : Task)
    (h : t ∈ filteredTasks m p) : t ∈ mapValues m := by
  simp only [filteredTasks] at h
  rcases h1 : strVal p.contextId with _ | cid <;>
    rcases h2 : strVal p.status with _ | s <;>
      rcases h3 : p.statusTimestampAfter with _ | f <;>
        simp only [h1, h2, h3] at h <;>
          simp_all [List.mem_filter]

theorem taskLe_trans : ∀ a b c : Task, taskLe a b → taskLe b c → taskLe a c := by
  intro a b c hab hbc
  simp only [taskLe, decide_eq_true_eq] at *
  omega

theorem taskLe_total : ∀ a b : Task, taskLe a b || taskLe b a := by
  intro a b
  simp only [taskLe]
  rcases Nat.le_total (timeKey a) (timeKey b) with h | h <;> simp [h]

theorem sortedTasks_perm (m : List (String × Task)) (p : ListTasksRequest) :
    (sortedTasks m p).Perm (filteredTasks m p) :=
  List.mergeSort_perm (filteredTasks m p) taskLe

theorem sortedTasks_pairwise (m : List (String × Task)) (p : ListTasksRequest) :
    (sortedTasks m p).Pairwise (fun a b => timeKey b ≤ timeKey a) := by
  have h := List.sorted_mergeSort taskLe_trans taskLe_total (filteredTasks m p)
  exact h.imp (by intro a b hab; simpa [taskLe, decide_eq_true_eq] using hab)

theorem sortedTasks_stable (m : List (String × Task)) (p : ListTasksRequest) (a b : Task)
    (hk : timeKey a = timeKey b) (hsub : [a, b].Sublist (filteredTasks m p)) :
    [a, b].Sublist (sortedTasks m p) :=
  List.pair_sublist_mergeSort taskLe_trans taskLe_total
    (by simp [taskLe, hk]) hsub


theorem filteredTasks_pageToken (m : List (String × Task)) (p : ListTasksRequest)
    (tok : Option Nat) :
    filteredTasks m { p with pageToken := tok } = filteredTasks m p := rfl

theorem sortedTasks_pageToken (m : List (String × Task)) (p : ListTasksRequest)
    (tok : Option Nat) :
    sortedTasks m { p with pageToken := tok } = sortedTasks m p := rfl

theorem listPageResp_eq (st : ServerState) (p : ListTasksRequest) (hok : listParamsOk p)
    (tok : Option Nat) :
    listPageResp st p tok = some
      { tasks := (((sortedTasks st.tasks p).drop (tok.getD 0)).take (p.pageSize.getD 50).toNat).map
          (projectListTask p.historyLength p.includeArtifacts),
        nextPageToken :=
          if tok.getD 0 + (p.pageSize.getD 50).toNat < (sortedTasks st.tasks p).length
          then some (tok.getD 0 + (p.pageSize.getD 50).toNat) else none,
        pageSize := ((((sortedTasks st.tasks p).drop (tok.getD 0)).take
            (p.pageSize.getD 50).toNat).map
          (projectListTask p.historyLength p.includeArtifacts)).length,
        totalSize := (sortedTasks st.tasks p).length } := by
  obtain ⟨h1, h2, h3, h4⟩ := hok
  have hg1 : ¬ (p.pageSize.getD 50 < 1 ∨ p.pageSize.getD 50 > 100) := by omega
  have hg2 : historyLengthNegative p.historyLength = false := by
    unfold historyLengthNegative
    rcases hh : p.historyLength with _ | k
    · rfl
    · simp only [hh] at h3
      simp [decide_eq_false_iff_not]
      omega
  have hg3 : statusInvalid p.status = false := by
    unfold statusInvalid
    rcases hs : p.status with _ | s
    · rfl
    · simp only [hs] at h4
      simp [h4]
  unfold listPageResp handleTasksList
  simp only [Option.getD_some]
  simp only [sortedTasks_pageToken]
  rw [if_neg hg1]
  simp only [hg2, hg3, Bool.false_eq_true, if_false, jsonRpcSuccess_result]


theorem listPagesFrom_eq (st : ServerState) (p : ListTasksRequest) (hok : listParamsOk p) :
    ∀ (fuel : Nat) (tok : Option Nat),
      (sortedTasks st.tasks p).length ≤ tok.getD 0 + fuel * (p.pageSize.getD 50).toNat →
      listPagesFrom st p fuel tok
        = ((sortedTasks st.tasks p).drop (tok.getD 0)).map
            (projectListTask p.historyLength p.includeArtifacts) := by
  intro fuel
  induction fuel with
  | zero =>
    intro tok hb
    simp only [listPagesFrom]
    rw [List.drop_eq_nil_of_le (by simpa using hb)]
    rfl
  | succ fuel ih =>
    intro tok hb
    simp only [listPagesFrom]
    rw [listPageResp_eq st p hok tok]
    by_cases hlt : tok.getD 0 + (p.pageSize.getD 50).toNat < (sortedTasks st.tasks p).length
    · rw [if_pos hlt]
      dsimp only
      have hbound : (sortedTasks st.tasks p).length ≤
          (some (tok.getD 0 + (p.pageSize.getD 50).toNat) : Option Nat).getD 0
            + fuel * (p.pageSize.getD 50).toNat := by
        simp only [Option.getD_some]
        rw [Nat.succ_mul] at hb
        omega
      rw [ih (some (tok.getD 0 + (p.pageSize.getD 50).toNat)) hbound]
      simp only [Option.getD_some]
      rw [← List.map_append]
      congr 1
      have hdd : List.drop (tok.getD 0 + (p.pageSize.getD 50).toNat) (sortedTasks st.tasks p)
          = List.drop (p.pageSize.getD 50).toNat
              (List.drop (tok.getD 0) (sortedTasks st.tasks p)) := by
        rw [List.drop_drop]
      rw [hdd, List.take_append_drop]
    · rw [if_neg hlt]
      dsimp only
      rw [List.take_of_length_le]
      · simp
      · rw [List.length_drop]
        omega


theorem sliceLast_min (k : Int) (h : List Message) :
    sliceLast k h = h.drop (h.length - min k.toNat h.length) := by
  unfold sliceLast
  congr 1
  omega

theorem handleTasksGet_tasks (st : ServerState) (id : RpcId) (gp : Option GetTaskRequest) :
    (handleTasksGet st id gp).2.tasks = st.tasks := by
  simp only [handleTasksGet]
  cases hb : historyLengthNegative (gp.bind GetTaskRequest.historyLength) <;>
    (repeat' split) <;> simp

theorem handleTasksList_tasks (st : ServerState) (id : RpcId) (lp : Option ListTasksRequest) :
    (handleTasksList st id lp).2.tasks = st.tasks := by
  simp only [handleTasksList]
  cases hb1 : historyLengthNegative (lp.getD {}).historyLength <;>
    cases hb2 : statusInvalid (lp.getD {}).status <;>
      (repeat' split) <;> simp

theorem handleTasksCancel_frame (st : ServerState) (id : RpcId) (cp : Option CancelTaskRequest)
    (tid : String) (t : Task) (hget : mapGet st.tasks tid = some t) :
    mapGet (handleTasksCancel st id cp).2.tasks tid = some t
    ∨ (t.status.state ∉ TERMINAL_STATES ∧
       mapGet (handleTasksCancel st id cp).2.tasks tid
         = some { t with status :=
             { state := TASK_STATE_CANCELED, message := none, timestamp := some st.now } }) := by
  rcases hpid : strVal (cp.bind CancelTaskRequest.id) with _ | tid2
  · left
    simp [handleTasksCancel, hpid, hget]
  · rcases hget2 : mapGet st.tasks tid2 with _ | t2
    · left
      simp [handleTasksCancel, hpid, hget2, hget]
    · by_cases hterm2 : t2.status.state ∈ TERMINAL_STATES
      · left
        simp [handleTasksCancel, hpid, hget2, hterm2, hget]
      · by_cases heq : tid2 = tid
        · subst heq
          right
          have ht : t2 = t := by
            rw [hget] at hget2
            exact (Option.some_inj.1 hget2).symm
          subst ht
          refine ⟨hterm2, ?_⟩
          simp only [handleTasksCancel, hpid, hget2]
          rw [if_neg hterm2]
          simp [mapGet_mapSet_self]
        · left
          simp only [handleTasksCancel, hpid, hget2]
          rw [if_neg hterm2]
          simp only [jsonRpcSuccess_tasks]
          rw [mapGet_mapSet_ne st.tasks tid2 _ tid (fun hh => heq hh.symm)]
          exact hget

theorem handleMessageSend_frame (handler : MessageHandler) (st : ServerState) (id : RpcId)
    (params : Option SendMessageRequest) (tid : String) (t : Task)
    (hfresh : FreshSupply st) (hget : mapGet st.tasks tid = some t) :
    ∃ t2, mapGet (handleMessageSend handler st id params).2.tasks tid = some t2
      ∧ (t2 = t ∨
         (t.status.state ∉ TERMINAL_STATES ∧
          ∃ rest, t2.history.getD [] = t.history.getD [] ++ rest)) := by
  rcases handleMessageSend_tasks handler st id params with hsame | ⟨su, t2, hsetup, htasks, hhist⟩
  · exact ⟨t, by rw [hsame]; exact hget, .inl rfl⟩
  · obtain ⟨hnow, htasks2, hstate, hts, hcases⟩ := messageSendSetup_ok st params su hsetup
    by_cases heq : tid = su.taskId
    · have hfinal : mapGet (handleMessageSend handler st id params).2.tasks tid = some t2 := by
        rw [htasks, heq]
        exact mapGet_mapSet_self _ _ _
      rcases hcases with ⟨ex, hex, hexterm, hexhist⟩ | ⟨huuid, hfreshhist⟩
      · have hext : ex = t := by
          rw [← heq, hget] at hex
          exact (Option.some_inj.1 hex).symm
        subst hext
        refine ⟨t2, hfinal, .inr ⟨hexterm, ?_⟩⟩
        rcases hhist with hh | ⟨m2, hh⟩
        · exact ⟨[su.msg], by rw [hh, hexhist]; simp⟩
        · exact ⟨[su.msg, m2], by rw [hh, hexhist]; simp⟩
      · exfalso
        have hnone := hfresh st.uuidCounter (Nat.le_refl _)
        rw [← huuid, ← heq, hget] at hnone
        cases hnone
    · refine ⟨t, ?_, .inl rfl⟩
      rw [htasks, mapGet_mapSet_ne _ _ _ _ heq, htasks2, mapGet_mapSet_ne _ _ _ _ heq]
      exact hget


/-! ## Claim theorems -/

/-- C1: for every message/send request whose parameters pass structural
validation, if the handler callback throws, the task's status is set to
FAILED with a status message carrying the error text, and the JSON-RPC
response is a success result wrapping that FAILED task — no JSON-RPC error
object, hence never an INTERNAL_ERROR response. -/
theorem C1_handler_throw_is_failed_task_success (handler : MessageHandler)
    (st : ServerState) (id : RpcId) (params : Option SendMessageRequest)
    (su : SendSetup) (e : String)
    (hsetup : messageSendSetup st params = .ok su)
    (herr : (handler su.msg su.taskId su.contextId).result = .error e) :
    (handleMessageSend handler st id params).1.error = none
    ∧ ∃ t, (handleMessageSend handler st id params).1.result
          = some (.sendMessage { task := some t, message := none })
        ∧ t.status.state = TASK_STATE_FAILED
        ∧ t.status.message = some (failureMessage e)
        ∧ mapGet (handleMessageSend handler st id params).2.tasks su.taskId = some t := by
  simp only [handleMessageSend, hsetup, herr]
  refine ⟨by simp,
    ⟨{ applyOutcomeEffects su.st.now su.task (handler su.msg su.taskId su.contextId) with
        status := { state := TASK_STATE_FAILED, message := some (failureMessage e),
                    timestamp := some su.st.now } }, ?_, rfl, rfl, ?_⟩⟩
  · simp
  · simp [mapGet_mapSet_self]

/-- C1 witness: a throwing handler on the empty store with a valid
message yields a FAILED task inside a successful response. -/
theorem C1_witness :
    messageSendSetup exEmpty (some { message := some exMsg })
        = .ok (messageSendFinish exEmpty exMsg none none)
    ∧ ((handleMessageSend exThrowHandler exEmpty (.n 1)
          (some { message := some exMsg })).1.error = none
      ∧ ∃ t, (handleMessageSend exThrowHandler exEmpty (.n 1)
              (some { message := some exMsg })).1.result
            = some (.sendMessage { task := some t, message := none })
          ∧ t.status.state = TASK_STATE_FAILED
          ∧ t.status.message = some (failureMessage "boom")
          ∧ mapGet (handleMessageSend exThrowHandler exEmpty (.n 1)
                (some { message := some exMsg })).2.tasks
              (messageSendFinish exEmpty exMsg none none).taskId = some t) :=
  ⟨by rfl,
   C1_handler_throw_is_failed_task_success exThrowHandler exEmpty (.n 1)
     (some { message := some exMsg }) (messageSendFinish exEmpty exMsg none none) "boom"
     (by rfl) (by rfl)⟩

/-- C4 counterexample: with the default configuration, receiving
`auth_error` while connecting closes the socket but leaves the connect
promise pending (it is not rejected) and the ensuing close event arms a
reconnect timer — contradicting the claim that the promise rejects and no
reconnect timer is armed. -/
theorem C4_counterexample :
    (wsCloseEvent (handleRelayMessage .authError connectingConn)).connectPromise
        = PromiseState.pending
    ∧ (wsCloseEvent (handleRelayMessage .authError connectingConn)).reconnectTimerArmed = true
    ∧ (wsCloseEvent (handleRelayMessage .authError connectingConn)).wsOpen = false := by
  decide

/-- C4 (amended): on `auth_error` the socket is closed and the connection
flag cleared, but the pending connect promise is left untouched (neither
resolved nor rejected), and the close event arms a reconnect timer exactly
when one was already pending or the client is not stopping and
auto-reconnect is enabled (the default). -/
theorem C4_auth_error_closes_without_reject (c : RelayConn) :
    (wsCloseEvent (handleRelayMessage .authError c)).wsOpen = false
    ∧ (wsCloseEvent (handleRelayMessage .authError c)).isConnected = false
    ∧ (wsCloseEvent (handleRelayMessage .authError c)).connectPromise = c.connectPromise
    ∧ ((wsCloseEvent (handleRelayMessage .authError c)).reconnectTimerArmed = true
        ↔ (c.reconnectTimerArmed = true
           ∨ (c.isStopping = false ∧ c.autoReconnect = true))) := by
  rcases c with ⟨ws, ic, stp, ar, rt, pr⟩
  rcases stp <;> rcases ar <;> rcases rt <;>
    simp [handleRelayMessage, wsCloseEvent, scheduleReconnect]

/-- C5 counterexample: an unparseable body produces a PARSE_ERROR response
whose id is the generated "uuid-0" — not null as the claim states. -/
theorem C5_counterexample :
    handleJsonRpcValidation exEmpty none
      = .error ({ id := RpcId.s "uuid-0", result := none,
                  error := some ⟨PARSE_ERROR, "Parse error"⟩ },
                { tasks := [], uuidCounter := 1, now := 100 })
    ∧ RpcId.s "uuid-0" ≠ RpcId.null := by
  refine ⟨rfl, by simp⟩

/-- C5 (amended): whenever the inbound request id cannot be determined —
unparseable body (PARSE_ERROR -32700) or an id of invalid type
(INVALID_REQUEST -32600) — the error response carries a freshly generated
UUID string id instead of null (the `id ?? randomUUID()` coalescing). -/
theorem C5_undetermined_id_becomes_uuid (st : ServerState) (r : RawRequest)
    (hid : r.id = RawId.other) :
    handleJsonRpcValidation st none
      = .error ({ id := RpcId.s (uuidStr st.uuidCounter), result := none,
                  error := some ⟨PARSE_ERROR, "Parse error"⟩ }, bumpUuid st)
    ∧ handleJsonRpcValidation st (some (.obj r))
      = .error ({ id := RpcId.s (uuidStr st.uuidCounter), result := none,
                  error := some ⟨INVALID_REQUEST,
                    "Invalid Request: id must be string or number"⟩ }, bumpUuid st)
    ∧ RpcId.s (uuidStr st.uuidCounter) ≠ RpcId.null := by
  refine ⟨rfl, ?_, by simp⟩
  simp [handleJsonRpcValidation, validateJsonRpcRequestDetailed, hid, jsonRpcError]

/-- C5 witness: amended statement at a concrete state and request. -/
theorem C5_witness :
    handleJsonRpcValidation exEmpty none
      = .error ({ id := RpcId.s (uuidStr exEmpty.uuidCounter), result := none,
                  error := some ⟨PARSE_ERROR, "Parse error"⟩ }, bumpUuid exEmpty)
    ∧ handleJsonRpcValidation exEmpty (some (.obj { id := RawId.other }))
      = .error ({ id := RpcId.s (uuidStr exEmpty.uuidCounter), result := none,
                  error := some ⟨INVALID_REQUEST,
                    "Invalid Request: id must be string or number"⟩ }, bumpUuid exEmpty)
    ∧ RpcId.s (uuidStr exEmpty.uuidCounter) ≠ RpcId.null :=
  C5_undetermined_id_becomes_uuid exEmpty { id := RawId.other } rfl

/-- C10: tasks/cancel on a non-terminal task replaces the entire status
object with one containing only state CANCELED and a fresh timestamp (any
previous status message is dropped), while id, contextId, history,
artifacts, and metadata are left unchanged; the response is a success
wrapping that task. -/
theorem C10_cancel_replaces_status (st : ServerState) (id : RpcId) (tid : String) (t : Task)
    (htid : tid ≠ "") (hget : mapGet st.tasks tid = some t)
    (hterm : t.status.state ∉ TERMINAL_STATES) :
    (handleTasksCancel st id (some { id := some tid })).1.error = none
    ∧ (handleTasksCancel st id (some { id := some tid })).1.result
        = some (.task { t with status :=
            { state := TASK_STATE_CANCELED, message := none, timestamp := some st.now } })
    ∧ mapGet (handleTasksCancel st id (some { id := some tid })).2.tasks tid
        = some { t with status :=
            { state := TASK_STATE_CANCELED, message := none, timestamp := some st.now } } := by
  let t2 : Task := { t with status :=
      { state := TASK_STATE_CANCELED, message := none, timestamp := some st.now } }
  have hresp : handleTasksCancel st id (some { id := some tid })
      = jsonRpcSuccess { st with tasks := mapSet st.tasks tid t2 } id (.task t2) := by
    have h1 : strVal ((some ({ id := some tid } : CancelTaskRequest)).bind
        CancelTaskRequest.id) = some tid := by
      simp [strVal, htid]
    simp only [handleTasksCancel, h1, hget]
    rw [if_neg hterm]
  exact ⟨by rw [hresp]; simp, by rw [hresp]; simp, by rw [hresp]; simp [mapGet_mapSet_self]⟩


/-- C10 witness: cancelling the WORKING task of the concrete store drops
its status message and leaves every other field unchanged. -/
theorem C10_witness :
    ("t2" : String) ≠ ""
    ∧ mapGet exStore.tasks "t2" = some exWorkTask
    ∧ exWorkTask.status.state ∉ TERMINAL_STATES
    ∧ ((handleTasksCancel exStore (.n 1) (some { id := some "t2" })).1.error = none
      ∧ (handleTasksCancel exStore (.n 1) (some { id := some "t2" })).1.result
          = some (.task { exWorkTask with status :=
              { state := TASK_STATE_CANCELED, message := none,
                timestamp := some exStore.now } })
      ∧ mapGet (handleTasksCancel exStore (.n 1) (some { id := some "t2" })).2.tasks "t2"
          = some { exWorkTask with status :=
              { state := TASK_STATE_CANCELED, message := none,
                timestamp := some exStore.now } }) :=
  ⟨by decide, by decide, by decide,
   C10_cancel_replaces_status exStore (.n 1) "t2" exWorkTask (by decide) (by decide) (by decide)⟩

/-- C6: a valid message/send request carrying no taskId creates a task
with a fresh id (not previously in the store), contextId the supplied one
or a fresh one, status WORKING at the current instant, and history already
holding exactly the incoming message at the moment the handler callback is
invoked — so a concurrent tasks/get at that moment observes WORKING with
the request message in history. -/
theorem C6_new_task_creation (st : ServerState) (id : RpcId) (m : Message) (ps : List Part)
    (hfresh : FreshSupply st)
    (hparts : m.parts = some ps) (hlen : ps.length ≠ 0)
    (hrole : strVal m.role ≠ none) (hmid : strVal m.messageId ≠ none)
    (htid : strVal m.taskId = none) :
    ∃ su, messageSendSetup st (some { message := some m }) = .ok su
      ∧ su.taskId = uuidStr st.uuidCounter
      ∧ mapGet st.tasks su.taskId = none
      ∧ (∀ c, strVal m.contextId = some c → su.contextId = c)
      ∧ (strVal m.contextId = none → su.contextId = uuidStr (st.uuidCounter + 1))
      ∧ su.task.contextId = some su.contextId
      ∧ su.task.status.state = TASK_STATE_WORKING
      ∧ su.task.status.timestamp = some st.now
      ∧ su.task.history = some [m]
      ∧ mapGet su.st.tasks su.taskId = some su.task
      ∧ (handleTasksGet su.st id (some { id := some su.taskId })).1.result
          = some (.task su.task) := by
  have hsetup : messageSendSetup st (some { message := some m })
      = .ok (messageSendFinish st m none none) := by
    simp only [messageSendSetup, hparts]
    rw [if_neg hlen, if_neg hrole, if_neg hmid]
    simp only [htid]
  obtain ⟨h1, h2, h3, h4, h5, h6, h7, h8, h9, h10, h11⟩ := messageSendFinish_fresh st m
  obtain ⟨hc1, hc2⟩ := messageSendFinish_fresh_ctx st m
  have hstored : mapGet (messageSendFinish st m none none).st.tasks
      (messageSendFinish st m none none).taskId
      = some (messageSendFinish st m none none).task := by
    rw [h4, h2]
    exact mapGet_mapSet_self _ _ _
  have hne : (messageSendFinish st m none none).taskId ≠ "" := by
    rw [h2]
    exact uuidStr_ne "" (by decide) st.uuidCounter
  refine ⟨messageSendFinish st m none none, hsetup, h2, ?_, hc2, hc1, h9, h5, h7, h8,
    hstored, ?_⟩
  · rw [h2]
    exact hfresh st.uuidCounter (Nat.le_refl _)
  · have h1id : strVal ((some ({ id := some (messageSendFinish st m none none).taskId } : GetTaskRequest)).bind GetTaskRequest.id) = some (messageSendFinish st m none none).taskId := by
      simp [strVal, hne]
    simp only [handleTasksGet, h1id]
    have hg : historyLengthNegative ((some ({ id := some (messageSendFinish st m none none).taskId } : GetTaskRequest)).bind GetTaskRequest.historyLength) = false := rfl
    rw [hg]
    simp only [Bool.false_eq_true, if_false, hstored]
    simp

/-- C6 witness: the fresh-task creation at the empty store. -/
theorem C6_witness :
    FreshSupply exEmpty
    ∧ ∃ su, messageSendSetup exEmpty (some { message := some exMsg }) = .ok su
      ∧ su.taskId = uuidStr exEmpty.uuidCounter
      ∧ mapGet exEmpty.tasks su.taskId = none
      ∧ (∀ c, strVal exMsg.contextId = some c → su.contextId = c)
      ∧ (strVal exMsg.contextId = none → su.contextId = uuidStr (exEmpty.uuidCounter + 1))
      ∧ su.task.contextId = some su.contextId
      ∧ su.task.status.state = TASK_STATE_WORKING
      ∧ su.task.status.timestamp = some exEmpty.now
      ∧ su.task.history = some [exMsg]
      ∧ mapGet su.st.tasks su.taskId = some su.task
      ∧ (handleTasksGet su.st (.n 1) (some { id := some su.taskId })).1.result
          = some (.task su.task) :=
  ⟨fun k _ => mapGet_uuid_none [] (by intro p hp; cases hp) k,
   C6_new_task_creation exEmpty (.n 1) exMsg
     [{ type := some "text", text := some "Hello" }]
     (fun k _ => mapGet_uuid_none [] (by intro p hp; cases hp) k)
     (by decide) (by decide) (by decide) (by decide) (by decide)⟩

/-- C7: tasks/get with historyLength 0 returns a task with no history
field; with historyLength N greater than 0 it returns exactly the last
min(N, stored length) entries in stored order; with historyLength omitted
it returns the full stored history — in every case leaving the store
unchanged. -/
theorem C7_get_history_projection (st : ServerState) (id : RpcId) (tid : String) (t : Task)
    (h : List Message) (htid : tid ≠ "") (hget : mapGet st.tasks tid = some t)
    (hh : t.history = some h) :
    ((handleTasksGet st id (some { id := some tid, historyLength := some 0 })).1.result
        = some (.task { t with history := none })
      ∧ (handleTasksGet st id (some { id := some tid, historyLength := some 0 })).2.tasks
        = st.tasks)
    ∧ (∀ k : Int, 0 < k →
        (handleTasksGet st id (some { id := some tid, historyLength := some k })).1.result
          = some (.task { t with
              history := some (h.drop (h.length - min k.toNat h.length)) })
        ∧ (handleTasksGet st id (some { id := some tid, historyLength := some k })).2.tasks
          = st.tasks)
    ∧ ((handleTasksGet st id (some { id := some tid })).1.result = some (.task t)
      ∧ (handleTasksGet st id (some { id := some tid })).2.tasks = st.tasks) := by
  have hid0 : ∀ hl : Option Int, strVal ((some ({ id := some tid, historyLength := hl }
      : GetTaskRequest)).bind GetTaskRequest.id) = some tid := by
    intro hl
    simp [strVal, htid]
  refine ⟨⟨?_, handleTasksGet_tasks st id _⟩,
    fun k hk => ⟨?_, handleTasksGet_tasks st id _⟩,
    ⟨?_, handleTasksGet_tasks st id _⟩⟩
  · simp only [handleTasksGet, hid0 (some 0)]
    have hg : historyLengthNegative ((some ({ id := some tid, historyLength := some 0 }
        : GetTaskRequest)).bind GetTaskRequest.historyLength) = false := rfl
    rw [hg]
    simp only [Bool.false_eq_true, if_false, hget]
    simp
  · simp only [handleTasksGet, hid0 (some k)]
    have hg : historyLengthNegative ((some ({ id := some tid, historyLength := some k }
        : GetTaskRequest)).bind GetTaskRequest.historyLength) = false := by
      simp [historyLengthNegative]
      omega
    rw [hg]
    simp only [Bool.false_eq_true, if_false, hget]
    have hk0 : k ≠ 0 := by omega
    simp only [Option.some_bind]
    rw [if_neg hk0]
    simp only [hh, jsonRpcSuccess_result, Option.some.injEq, RpcResult.task.injEq]
    rw [sliceLast_min]
  · simp only [handleTasksGet, hid0 none]
    have hg : historyLengthNegative ((some ({ id := some tid }
        : GetTaskRequest)).bind GetTaskRequest.historyLength) = false := rfl
    rw [hg]
    simp only [Bool.false_eq_true, if_false, hget]
    simp

/-- C7 witness: the projections at a concrete task with one history entry
and historyLength 1. -/
theorem C7_witness :
    ("t2" : String) ≠ "" ∧ mapGet exStore.tasks "t2" = some exWorkTask
    ∧ exWorkTask.history = some [exMsg]
    ∧ (((handleTasksGet exStore (.n 1)
            (some { id := some "t2", historyLength := some 0 })).1.result
          = some (.task { exWorkTask with history := none })
        ∧ (handleTasksGet exStore (.n 1)
            (some { id := some "t2", historyLength := some 0 })).2.tasks = exStore.tasks)
      ∧ (∀ k : Int, 0 < k →
          (handleTasksGet exStore (.n 1)
              (some { id := some "t2", historyLength := some k })).1.result
            = some (.task { exWorkTask with
                history := some (([exMsg] : List Message).drop
                  (([exMsg] : List Message).length
                    - min k.toNat ([exMsg] : List Message).length)) })
          ∧ (handleTasksGet exStore (.n 1)
              (some { id := some "t2", historyLength := some k })).2.tasks = exStore.tasks)
      ∧ ((handleTasksGet exStore (.n 1) (some { id := some "t2" })).1.result
            = some (.task exWorkTask)
        ∧ (handleTasksGet exStore (.n 1) (some { id := some "t2" })).2.tasks
            = exStore.tasks)) :=
  ⟨by decide, by decide, by decide,
   C7_get_history_projection exStore (.n 1) "t2" exWorkTask [exMsg]
     (by decide) (by decide) (by decide)⟩


/-- C2: a message/send continuation naming a task in a terminal state
returns UNSUPPORTED_OPERATION (-32004), a tasks/cancel on it returns
TASK_NOT_CANCELABLE (-32002), in both cases leaving the task map entirely
unchanged; and none of the four operations ever changes the status.state
of a task that is in a terminal state. -/
theorem C2_terminal_states_frozen :
    (∀ (handler : MessageHandler) (st : ServerState) (id : RpcId) (m : Message)
        (ps : List Part) (tid : String) (t : Task),
      m.parts = some ps → ps.length ≠ 0 → strVal m.role ≠ none → strVal m.messageId ≠ none →
      strVal m.taskId = some tid → mapGet st.tasks tid = some t →
      t.status.state ∈ TERMINAL_STATES →
      (handleMessageSend handler st id (some { message := some m })).1.error
          = some ⟨UNSUPPORTED_OPERATION, "Task is in terminal state"⟩
      ∧ (handleMessageSend handler st id (some { message := some m })).1.result = none
      ∧ (handleMessageSend handler st id (some { message := some m })).2.tasks = st.tasks)
    ∧ (∀ (st : ServerState) (id : RpcId) (cp : Option CancelTaskRequest) (tid : String)
        (t : Task),
      strVal (cp.bind CancelTaskRequest.id) = some tid →
      mapGet st.tasks tid = some t → t.status.state ∈ TERMINAL_STATES →
      (handleTasksCancel st id cp).1.error
          = some ⟨TASK_NOT_CANCELABLE, "Task already in terminal state"⟩
      ∧ (handleTasksCancel st id cp).1.result = none
      ∧ (handleTasksCancel st id cp).2.tasks = st.tasks)
    ∧ (∀ (st : ServerState) (id : RpcId) (tid : String) (t : Task),
      mapGet st.tasks tid = some t → t.status.state ∈ TERMINAL_STATES →
      (∀ gp, mapGet (handleTasksGet st id gp).2.tasks tid = some t)
      ∧ (∀ lp, mapGet (handleTasksList st id lp).2.tasks tid = some t)
      ∧ (∀ cp, mapGet (handleTasksCancel st id cp).2.tasks tid = some t)
      ∧ (∀ (handler : MessageHandler) params, FreshSupply st →
          ∃ t2, mapGet (handleMessageSend handler st id params).2.tasks tid = some t2
            ∧ t2.status.state = t.status.state)) := by
  refine ⟨?_, ?_, ?_⟩
  · intro handler st id m ps tid t hparts hlen hrole hmid htid hget hterm
    have hsetup := messageSendSetup_terminal st m ps tid t hparts hlen hrole hmid htid
      hget hterm
    simp [handleMessageSend, hsetup]
  · intro st id cp tid t hpid hget hterm
    simp [handleTasksCancel, hpid, hget, hterm]
  · intro st id tid t hget hterm
    refine ⟨?_, ?_, ?_, ?_⟩
    · intro gp
      rw [handleTasksGet_tasks]
      exact hget
    · intro lp
      rw [handleTasksList_tasks]
      exact hget
    · intro cp
      rcases handleTasksCancel_frame st id cp tid t hget with hsame | ⟨hnt, _⟩
      · exact hsame
      · exact absurd hterm hnt
    · intro handler params hfresh
      rcases handleMessageSend_frame handler st id params tid t hfresh hget with
        ⟨t2, hfinal, heq | ⟨hnt, _⟩⟩
      · exact ⟨t2, hfinal, by rw [heq]⟩
      · exact absurd hterm hnt

/-- C2 witness: all three parts at the concrete store whose task "t1" is
COMPLETED. -/
theorem C2_witness :
    (exMsg.parts = some [{ type := some "text", text := some "Hello" }]
      ∧ ([{ type := some "text", text := some "Hello" }] : List Part).length ≠ 0
      ∧ strVal exMsg.role ≠ none ∧ strVal exMsg.messageId ≠ none
      ∧ strVal (some "t1") = some "t1"
      ∧ mapGet exStore.tasks "t1" = some exTermTask
      ∧ exTermTask.status.state ∈ TERMINAL_STATES)
    ∧ ((handleMessageSend exThrowHandler exStore (.n 1)
          (some { message := some { exMsg with taskId := some "t1" } })).1.error
        = some ⟨UNSUPPORTED_OPERATION, "Task is in terminal state"⟩
      ∧ (handleMessageSend exThrowHandler exStore (.n 1)
          (some { message := some { exMsg with taskId := some "t1" } })).1.result = none
      ∧ (handleMessageSend exThrowHandler exStore (.n 1)
          (some { message := some { exMsg with taskId := some "t1" } })).2.tasks
        = exStore.tasks)
    ∧ ((handleTasksCancel exStore (.n 1) (some { id := some "t1" })).1.error
        = some ⟨TASK_NOT_CANCELABLE, "Task already in terminal state"⟩
      ∧ (handleTasksCancel exStore (.n 1) (some { id := some "t1" })).1.result = none
      ∧ (handleTasksCancel exStore (.n 1) (some { id := some "t1" })).2.tasks
        = exStore.tasks)
    ∧ (∃ t2, mapGet (handleMessageSend exThrowHandler exStore (.n 1)
          (some { message := some exMsg })).2.tasks "t1" = some t2
        ∧ t2.status.state = exTermTask.status.state) :=
  ⟨⟨by decide, by decide, by decide, by decide, by decide, by decide, by decide⟩,
   C2_terminal_states_frozen.1 exThrowHandler exStore (.n 1)
     { exMsg with taskId := some "t1" } [{ type := some "text", text := some "Hello" }]
     "t1" exTermTask (by decide) (by decide) (by decide) (by decide) (by decide)
     (by decide) (by decide),
   C2_terminal_states_frozen.2.1 exStore (.n 1) (some { id := some "t1" }) "t1" exTermTask
     (by decide) (by decide) (by decide),
   (C2_terminal_states_frozen.2.2 exStore (.n 1) "t1" exTermTask (by decide)
     (by decide)).2.2.2 exThrowHandler (some { message := some exMsg })
     (fun k _ => mapGet_uuid_none exStore.tasks (by decide) k)⟩

/-- C9: the stored history of a task never shrinks — tasks/get and
tasks/list leave the task map entirely unchanged, tasks/cancel preserves
every stored history verbatim, and message/send only ever extends the
stored history of a task by appending. -/
theorem C9_history_never_shrinks :
    (∀ (st : ServerState) (id : RpcId) gp, (handleTasksGet st id gp).2.tasks = st.tasks)
    ∧ (∀ (st : ServerState) (id : RpcId) lp, (handleTasksList st id lp).2.tasks = st.tasks)
    ∧ (∀ (st : ServerState) (id : RpcId) cp (tid : String) (t : Task),
        mapGet st.tasks tid = some t →
        ∃ t2, mapGet (handleTasksCancel st id cp).2.tasks tid = some t2
          ∧ t2.history = t.history)
    ∧ (∀ (handler : MessageHandler) (st : ServerState) (id : RpcId) params
        (tid : String) (t : Task), FreshSupply st → mapGet st.tasks tid = some t →
        ∃ t2 rest, mapGet (handleMessageSend handler st id params).2.tasks tid = some t2
          ∧ t2.history.getD [] = t.history.getD [] ++ rest) := by
  refine ⟨handleTasksGet_tasks, handleTasksList_tasks, ?_, ?_⟩
  · intro st id cp tid t hget
    rcases handleTasksCancel_frame st id cp tid t hget with hsame | ⟨_, hcanc⟩
    · exact ⟨t, hsame, rfl⟩
    · exact ⟨_, hcanc, rfl⟩
  · intro handler st id params tid t hfresh hget
    rcases handleMessageSend_frame handler st id params tid t hfresh hget with
      ⟨t2, hfinal, heq | ⟨_, rest, hrest⟩⟩
    · exact ⟨t2, [], hfinal, by rw [heq]; simp⟩
    · exact ⟨t2, rest, hfinal, hrest⟩

/-- C9 witness: the frame facts at the concrete store, including a
message/send continuation appending to the history of "t2". -/
theorem C9_witness :
    (handleTasksGet exStore (.n 1) (some { id := some "t2" })).2.tasks = exStore.tasks
    ∧ (handleTasksList exStore (.n 1) (some {})).2.tasks = exStore.tasks
    ∧ (∃ t2, mapGet (handleTasksCancel exStore (.n 1)
          (some { id := some "t2" })).2.tasks "t2" = some t2
        ∧ t2.history = exWorkTask.history)
    ∧ (∃ t2 rest, mapGet (handleMessageSend exThrowHandler exStore (.n 1)
          (some { message := some { exMsg with taskId := some "t2" } })).2.tasks "t2"
          = some t2
        ∧ t2.history.getD [] = exWorkTask.history.getD [] ++ rest) :=
  ⟨C9_history_never_shrinks.1 exStore (.n 1) (some { id := some "t2" }),
   C9_history_never_shrinks.2.1 exStore (.n 1) (some {}),
   C9_history_never_shrinks.2.2.1 exStore (.n 1) (some { id := some "t2" }) "t2"
     exWorkTask (by decide),
   C9_history_never_shrinks.2.2.2 exThrowHandler exStore (.n 1)
     (some { message := some { exMsg with taskId := some "t2" } }) "t2" exWorkTask
     (fun k _ => mapGet_uuid_none exStore.tasks (by decide) k) (by decide)⟩


/-- C8: every task in a tasks/list result page is the projection of a
stored task — artifacts appear only when includeArtifacts is true, and
history is governed by the historyLength cap: 0 omits it entirely, N > 0
keeps the last min(N, length) entries from the tail, absent yields the
full stored history. -/
theorem C8_list_result_projection (st : ServerState) (id : RpcId) (p : ListTasksRequest)
    (r : ListTasksResponse) (rt : Task)
    (hres : (handleTasksList st id (some p)).1.result = some (.taskList r))
    (hmem : rt ∈ r.tasks) :
    ∃ t, t ∈ mapValues st.tasks
      ∧ rt = projectListTask p.historyLength p.includeArtifacts t
      ∧ rt.artifacts = (if p.includeArtifacts then t.artifacts else none)
      ∧ (p.historyLength = some 0 → rt.history = none)
      ∧ (∀ (k : Int) (h : List Message), p.historyLength = some k → 0 < k →
          t.history = some h →
          rt.history = some (h.drop (h.length - min k.toNat h.length)))
      ∧ (p.historyLength = none → rt.history = t.history) := by
  by_cases hg1 : (p.pageSize.getD 50 < 1 ∨ p.pageSize.getD 50 > 100)
  · simp only [handleTasksList, Option.getD_some, if_pos hg1, jsonRpcError_result] at hres
    cases hres
  by_cases hb2 : historyLengthNegative p.historyLength = true
  · simp only [handleTasksList, Option.getD_some, if_neg hg1, hb2, if_true,
      jsonRpcError_result] at hres
    cases hres
  rw [Bool.not_eq_true] at hb2
  by_cases hb3 : statusInvalid p.status = true
  · simp only [handleTasksList, Option.getD_some, if_neg hg1, hb2, hb3,
      Bool.false_eq_true, if_false, if_true, jsonRpcError_result] at hres
    cases hres
  rw [Bool.not_eq_true] at hb3
  simp only [handleTasksList, Option.getD_some, if_neg hg1, hb2, hb3,
    Bool.false_eq_true, if_false, jsonRpcSuccess_result, Option.some.injEq,
    RpcResult.taskList.injEq] at hres
  subst hres
  rcases List.mem_map.1 hmem with ⟨t, htmem, hproj⟩
  have hmem2 : t ∈ sortedTasks st.tasks p :=
    ((List.take_sublist _ _).trans (List.drop_sublist _ _)).subset htmem
  have hmem3 : t ∈ filteredTasks st.tasks p := by
    unfold sortedTasks at hmem2
    exact List.mem_mergeSort.1 hmem2
  subst hproj
  refine ⟨t, mem_filteredTasks st.tasks p t hmem3, rfl,
    projectListTask_artifacts p.historyLength p.includeArtifacts t, ?_, ?_, ?_⟩
  · intro h0
    rw [h0]
    exact projectListTask_history_zero p.includeArtifacts t
  · intro k h hk hkpos hh
    rw [hk, projectListTask_history_pos k p.includeArtifacts t h (by omega) hh,
      sliceLast_min]
  · intro h0
    rw [h0]
    exact projectListTask_history_full p.includeArtifacts t

/-- C8 witness: the default projection (no historyLength, artifacts not
requested) of a concrete one-task store. -/
theorem C8_witness :
    (handleTasksList exStoreOne (.n 1) (some {})).1.result
      = some (.taskList
          { tasks := [projectListTask none false exWorkTask],
            nextPageToken := none, pageSize := 1, totalSize := 1 })
    ∧ projectListTask none false exWorkTask ∈ [projectListTask none false exWorkTask]
    ∧ ∃ t, t ∈ mapValues exStoreOne.tasks
      ∧ projectListTask none false exWorkTask = projectListTask none false t
      ∧ (projectListTask none false exWorkTask).artifacts
          = (if false then t.artifacts else none)
      ∧ ((none : Option Int) = some 0 →
          (projectListTask none false exWorkTask).history = none)
      ∧ (∀ (k : Int) (h : List Message), (none : Option Int) = some k → 0 < k →
          t.history = some h →
          (projectListTask none false exWorkTask).history
            = some (h.drop (h.length - min k.toNat h.length)))
      ∧ ((none : Option Int) = none →
          (projectListTask none false exWorkTask).history = t.history) := by
  have hsort : sortedTasks exStoreOne.tasks {} = [exWorkTask] := by
    show (filteredTasks exStoreOne.tasks {}).mergeSort taskLe = [exWorkTask]
    have hf : filteredTasks exStoreOne.tasks {} = [exWorkTask] := rfl
    rw [hf, List.mergeSort_singleton]
  have hres : (handleTasksList exStoreOne (.n 1) (some {})).1.result
      = some (.taskList
          { tasks := [projectListTask none false exWorkTask],
            nextPageToken := none, pageSize := 1, totalSize := 1 }) := by
    simp only [handleTasksList, Option.getD_some]
    rw [if_neg (by decide)]
    simp only [hsort]
    rfl
  exact ⟨hres, by simp,
    C8_list_result_projection exStoreOne (.n 1) {}
      { tasks := [projectListTask none false exWorkTask],
        nextPageToken := none, pageSize := 1, totalSize := 1 }
      (projectListTask none false exWorkTask) hres (by simp)⟩


/-- C3: for every store, filter, and pageSize in the valid range (and any
valid parameter set), the sorted list underlying tasks/list is a
permutation of the filtered set; every returned page is sorted by
status.timestamp descending; ties keep the store's insertion order;
concatenating the task ids of all pages obtained by repeatedly following
nextPageToken from the first call yields exactly the ids of the sorted
filtered set, each once; and nextPageToken is empty exactly when the
page's offset plus pageSize reaches totalSize. -/
theorem C3_list_sorted_stable_pagination (st : ServerState) (p : ListTasksRequest)
    (hok : listParamsOk p) :
    ((listPagesFrom st p ((sortedTasks st.tasks p).length + 1) none).map Task.id
        = (sortedTasks st.tasks p).map Task.id)
    ∧ (sortedTasks st.tasks p).Perm (filteredTasks st.tasks p)
    ∧ (∀ tok r, listPageResp st p tok = some r →
        r.tasks.Pairwise (fun a b => timeKey b ≤ timeKey a)
        ∧ r.totalSize = (filteredTasks st.tasks p).length
        ∧ (r.nextPageToken = none ↔
            r.totalSize ≤ tok.getD 0 + (p.pageSize.getD 50).toNat))
    ∧ (∀ a b, timeKey a = timeKey b → [a, b].Sublist (filteredTasks st.tasks p) →
        [a, b].Sublist (sortedTasks st.tasks p)) := by
  have hn : 1 ≤ (p.pageSize.getD 50).toNat := by
    obtain ⟨h1, -, -, -⟩ := hok
    omega
  refine ⟨?_, sortedTasks_perm st.tasks p, ?_, sortedTasks_stable st.tasks p⟩
  · rw [listPagesFrom_eq st p hok ((sortedTasks st.tasks p).length + 1) none ?_]
    · simp only [Option.getD_none, List.drop_zero]
      rw [List.map_map]
      apply List.map_congr_left
      intro t _
      simp
    · have hmul := Nat.le_mul_of_pos_right ((sortedTasks st.tasks p).length + 1) hn
      simp only [Option.getD_none]
      omega
  · intro tok r hr
    rw [listPageResp_eq st p hok tok] at hr
    simp only [Option.some.injEq] at hr
    subst hr
    refine ⟨?_, ?_, ?_⟩
    · dsimp only
      rw [List.pairwise_map]
      have hp := sortedTasks_pairwise st.tasks p
      have hsub := (List.take_sublist ((p.pageSize.getD 50).toNat)
          ((sortedTasks st.tasks p).drop (tok.getD 0))).trans
        (List.drop_sublist (tok.getD 0) (sortedTasks st.tasks p))
      have hpw := List.Pairwise.sublist hsub hp
      exact hpw.imp (by intro a b hab; simpa using hab)
    · exact (sortedTasks_perm st.tasks p).length_eq
    · dsimp only
      by_cases hc : tok.getD 0 + (p.pageSize.getD 50).toNat < (sortedTasks st.tasks p).length
      · rw [if_pos hc]
        constructor
        · intro h2
          exact Option.noConfusion h2
        · intro h2
          exact absurd h2 (by omega)
      · rw [if_neg hc]
        constructor
        · intro h2
          omega
        · intro h2
          rfl

/-- C3 witness: the pagination facts at the concrete one-task store with
pageSize 1. -/
theorem C3_witness :
    listParamsOk { pageSize := some 1 }
    ∧ (((listPagesFrom exStoreOne { pageSize := some 1 }
          ((sortedTasks exStoreOne.tasks { pageSize := some 1 }).length + 1) none).map
            Task.id
        = (sortedTasks exStoreOne.tasks { pageSize := some 1 }).map Task.id)
      ∧ (sortedTasks exStoreOne.tasks { pageSize := some 1 }).Perm
          (filteredTasks exStoreOne.tasks { pageSize := some 1 })
      ∧ (∀ tok r, listPageResp exStoreOne { pageSize := some 1 } tok = some r →
          r.tasks.Pairwise (fun a b => timeKey b ≤ timeKey a)
          ∧ r.totalSize = (filteredTasks exStoreOne.tasks { pageSize := some 1 }).length
          ∧ (r.nextPageToken = none ↔ r.totalSize ≤ tok.getD 0
              + (({ pageSize := some 1 } : ListTasksRequest).pageSize.getD 50).toNat))
      ∧ (∀ a b, timeKey a = timeKey b
          → [a, b].Sublist (filteredTasks exStoreOne.tasks { pageSize := some 1 })
          → [a, b].Sublist (sortedTasks exStoreOne.tasks { pageSize := some 1 }))) :=
  ⟨⟨by decide, by decide, trivial, trivial⟩,
   C3_list_sorted_stable_pagination exStoreOne { pageSize := some 1 }
     ⟨by decide, by decide, trivial, trivial⟩⟩

end A2A
